import Mathlib

/-!
Shallow embedding of the `assist` client-side adapter (src/js/index.js):
the readiness evaluator (`onboard`), the method delegation adapter
(`Contract`), the transaction dispatcher (`Transaction`) and the
initialization sequencer (`init`), together with theorems settling the
behavioural claims about them.

Promises are modelled by the list of settlement attempts the code issues,
in source order; the promise's eventual outcome is the first attempt
(once-only settlement semantics).
-/

namespace Assist

/-- Closed set of event codes the core emits or attaches to errors. -/
inductive EventCode
  | initFail
  | mobileBlocked
  | browserFail
  | walletFail
  | walletLogin
  | walletLoginEnable
  | walletEnable
  | networkFail
  | nsfFail
  | initState
  | contractQuery
  deriving DecidableEq, Repr

/-- Category tags used by handleEvent; initCategory models the source's
category code string for the initialization sequencer. -/
inductive CategoryCode
  | initCategory
  | onboard
  | activeContract
  | activeTransaction
  deriving DecidableEq, Repr

/-- Model of a JS Error object as thrown/rejected by the core: a message and
an optional `eventCode` tag attached to it (none models a plain JS error,
such as a TypeError, that carries no tag). -/
structure ErrorObj where
  message : String
  eventCode : Option EventCode
  deriving DecidableEq, Repr

/-- Scalar JS values, used for contract property values, call arguments and
call results. -/
inductive JSVal
  | undefined
  | null
  | bool (b : Bool)
  | num (n : Int)
  | str (s : String)
  deriving DecidableEq, Repr

/-- JS truthiness of a value, as used by `if (result)` and by `!x` guards. -/
def JSVal.truthy : JSVal → Bool
  | .undefined => false
  | .null => false
  | .bool b => b
  | .num n => n != 0
  | .str s => s != ""

/-- Model of JSON.stringify on scalar values: stringify(undefined) is the
value undefined, not a string, hence the Option codomain. -/
def jsonStringify : JSVal → Option String
  | .undefined => none
  | .null => some "null"
  | .bool true => some "true"
  | .bool false => some "false"
  | .num n => some (toString n)
  | .str s => some ("\"" ++ s ++ "\"")

/-- Payload of a contractQuery telemetry event. -/
structure ContractEventPayload where
  methodName : String
  parameters : List JSVal
  result : Option String
  deriving DecidableEq, Repr

/-- Event record handed to the event notifier (handleEvent). -/
structure Event where
  eventCode : EventCode
  categoryCode : CategoryCode
  reason : Option String
  contract : Option ContractEventPayload
  deriving DecidableEq, Repr

/-- One settlement attempt against a promise. -/
inductive Settle (ε α : Type)
  | reject (e : ε)
  | resolve (v : α)
  deriving DecidableEq, Repr

/-- Eventual outcome of a promise given the list of settlement attempts in
execution order: the first attempt wins, later ones are no-ops. -/
def promiseOutcome {ε α : Type} (attempts : List (Settle ε α)) : Option (Settle ε α) :=
  attempts.head?

/-- Environment State: the process-wide record of detected capability flags
read by the entry points (helpers/state, consumed by index.js). -/
structure EnvState where
  mobileDevice : Bool
  validBrowser : Bool
  web3Wallet : Bool
  accessToAccounts : Bool
  legacyWallet : Bool
  modernWallet : Bool
  walletLoggedIn : Bool
  walletEnabled : Bool
  correctNetwork : Bool
  minimumBalance : Bool
  validApiKey : Bool
  supportedNetwork : Bool
  legacyWeb3 : Bool
  web3Instance : Bool
  windowWeb3 : Bool
  deriving DecidableEq, Repr

/-- Rejection attempts issued by the i-th readiness check of the headless
onboard flow (index.js lines 128-180), in source order. Check 3 (account
access) can issue several rejections; all are listed in source order. -/
def checkRejects (s : EnvState) : Fin 6 → List ErrorObj
  | ⟨0, _⟩ =>
    if s.mobileDevice then
      [⟨"User is on a mobile device", some .mobileBlocked⟩]
    else []
  | ⟨1, _⟩ =>
    if !s.validBrowser then
      [⟨"User has an invalid browser", some .browserFail⟩]
    else []
  | ⟨2, _⟩ =>
    if !s.web3Wallet then
      [⟨"User does not have a web3 wallet installed", some .walletFail⟩]
    else []
  | ⟨3, _⟩ =>
    if !s.accessToAccounts then
      (if s.legacyWallet then
        [⟨"User needs to login to their account", some .walletLogin⟩]
      else []) ++
      (if s.modernWallet then
        (if !s.walletLoggedIn then
          [⟨"User needs to login to wallet", some .walletLoginEnable⟩]
        else []) ++
        (if !s.walletEnabled then
          [⟨"User needs to enable wallet", some .walletEnable⟩]
        else [])
      else [])
    else []
  | ⟨4, _⟩ =>
    if !s.correctNetwork then
      [⟨"User is on the wrong network", some .networkFail⟩]
    else []
  | ⟨5, _⟩ =>
    if !s.minimumBalance then
      [⟨"User does not have the minimum balance specified in the config", some .nsfFail⟩]
    else []
  | ⟨n + 6, h⟩ => absurd h (by omega)

/-- Settlement attempts issued by the headless onboard promise executor, in
source order: the environment-check failure (if any) is rejected first via
catch(reject), then every readiness check runs unconditionally and rejects
on failure, and finally resolve is attempted with the fixed confirmation
value. -/
def headlessAttempts (envFail : Option ErrorObj) (s : EnvState) :
    List (Settle ErrorObj String) :=
  envFail.toList.map Settle.reject ++
    ((List.finRange 6).map fun i => (checkRejects s i).map Settle.reject).flatten ++
    [Settle.resolve "User is ready to transact"]

/-- Eventual outcome of a headless onboard run. -/
def headlessOutcome (envFail : Option ErrorObj) (s : EnvState) :
    Option (Settle ErrorObj String) :=
  promiseOutcome (headlessAttempts envFail s)

/-- Result of an interactive-mode onboard call (index.js lines 186-219):
either an immediate rejection (precondition failures), or the mobile-block
notification whose promise is settled only by the dismissal hook, or
delegation to the external prepareForTransaction collaborator. -/
inductive OnboardInteractive
  | rejectNow (e : ErrorObj)
  | mobilePending (notification : Event) (onCloseError : ErrorObj)
  | prepare
  deriving DecidableEq, Repr

/-- Interactive-mode onboard: returns the control outcome together with the
update written to Environment State's validBrowser flag (some b when
updateState sets it to b, none when untouched). -/
def onboardInteractive (s : EnvState) : OnboardInteractive × Option Bool :=
  if !s.validApiKey then
    (.rejectNow ⟨"Your api key is not valid", some .initFail⟩, none)
  else if !s.supportedNetwork then
    (.rejectNow ⟨"This network is not supported", some .initFail⟩, none)
  else if s.mobileDevice then
    (.mobilePending
      ⟨.mobileBlocked, .onboard, none, none⟩
      ⟨"User is on a mobile device", some .mobileBlocked⟩,
      some false)
  else
    (.prepare, none)

/-- Settlement state of the interactive onboard promise, as a function of
whether the external dismissal hook (onClose) has been invoked yet: the
mobile-pending promise stays unsettled until the hook runs, then rejects
with the stored error. Precondition failures settle immediately; the
prepare path settles with whatever the external collaborator produces and
is left unconstrained here (none). -/
def interactiveSettlement (o : OnboardInteractive) (hookInvoked : Bool) :
    Option (Settle ErrorObj String) :=
  match o with
  | .rejectNow e => some (.reject e)
  | .mobilePending _ onCloseError =>
    if hookInvoked then some (.reject onCloseError) else none
  | .prepare => none

/-- Caller-supplied configuration object (the fields index.js reads). The
dappId field is a JS value so that falsy-but-present values are modelled
(absence is JSVal.undefined). -/
structure Config where
  dappId : JSVal
  mobileBlocked : Bool
  headlessMode : Bool
  web3Present : Bool
  deriving DecidableEq, Repr

instance {ε α : Type} [DecidableEq ε] [DecidableEq α] : DecidableEq (Except ε α) :=
  fun a b =>
    match a, b with
    | .ok x, .ok y =>
      if h : x = y then .isTrue (by rw [h]) else .isFalse (by simp [h])
    | .error x, .error y =>
      if h : x = y then .isTrue (by rw [h]) else .isFalse (by simp [h])
    | .ok _, .error _ => .isFalse (by simp)
    | .error _, .ok _ => .isFalse (by simp)

/-- Observable outcome of an init call: the events synchronously handed to
the event notifier, the value written to Environment State's validApiKey
flag (if any), and either a thrown error or the returned API surface
(modelled as Unit: the record of entry points). -/
structure InitRun where
  events : List Event
  validApiKeySet : Option Bool
  result : Except ErrorObj Unit
  deriving DecidableEq, Repr

/-- Initialization sequencer (index.js lines 22-117), restricted to its
synchronous decision logic: config-missing and missing-dappId failures
notify the event notifier and throw; on success the mobileBlocked
initialize event fires when the device is mobile and the config blocks
mobile, and the API surface is returned. The asynchronous initState event
and the external side effects (websocket, iframe, storage) are outside the
returned record. -/
def init (mobileDevice : Bool) (config : Option Config) : InitRun :=
  match config with
  | none =>
    { events := [⟨.initFail, .initCategory,
        some "A config object is needed to initialize assist", none⟩]
      validApiKeySet := none
      result := .error ⟨"A config object is needed to initialize assist", some .initFail⟩ }
  | some c =>
    if !c.dappId.truthy then
      { events := [⟨.initFail, .initCategory,
          some "No API key provided to init function", none⟩]
        validApiKeySet := some false
        result := .error ⟨"API key is required", some .initFail⟩ }
    else
      { events :=
          if mobileDevice && c.mobileBlocked then
            [⟨.mobileBlocked, .initCategory, none, none⟩]
          else []
        validApiKeySet := none
        result := .ok () }

/-- One invocation of a caller-supplied completion callback. -/
inductive CbCall
  | err (e : JSVal)
  | ok (r : JSVal)
  deriving DecidableEq, Repr

/-- Observable outcome of one legacy-provider .call(...) invocation: the
callback invocations and the telemetry events, each in execution order. -/
structure CallRun where
  cbCalls : List CbCall
  events : List Event
  deriving DecidableEq, Repr

/-- Value of the awaited promisified call: on resolution it is the resolved
value; on rejection the await takes the value of the catch handler
`callback && callback(errorObj)`, which is undefined whether or not a
callback is present (the callback is a completion handler returning
undefined). -/
def legacyCallResult (outcome : Except JSVal JSVal) : JSVal :=
  match outcome with
  | .ok v => v
  | .error _ => .undefined

/-- Legacy-provider .call(...) delegate (index.js lines 281-306), after the
argument splitter has produced the callback and positional args: awaits the
promisified provider call, absorbing a rejection into the callback; invokes
the callback with (null, result) only when the result is truthy; then
unconditionally emits the contractQuery telemetry event carrying the method
name, the positional args and the JSON-serialized result. The callback is
modelled by its presence (it returns undefined). -/
def legacyCall (name : String) (callback : Option Unit) (args : List JSVal)
    (outcome : Except JSVal JSVal) : CallRun :=
  let result := legacyCallResult outcome
  let failCalls : List CbCall :=
    match outcome, callback with
    | .error e, some _ => [.err e]
    | _, _ => []
  let okCalls : List CbCall :=
    if result.truthy then
      match callback with
      | some _ => [.ok result]
      | none => []
    else []
  { cbCalls := failCalls ++ okCalls
    events := [⟨.contractQuery, .activeContract, none,
      some ⟨name, args, jsonStringify result⟩⟩] }

/-- Observable outcome of a Transaction call: either an immediate promise
rejection (precondition failures), or the mobile fast-path direct provider
send (no dispatcher bookkeeping), or a dispatched run recording the
settlement attempts of the returned promise and the callback invocations. -/
inductive TxResult
  | rejected (e : ErrorObj)
  | mobileSend
  | dispatched (attempts : List (Settle ErrorObj JSVal)) (cbCalls : List CbCall)
  deriving DecidableEq, Repr

/-- Modelled from the spec: the external transaction submission collaborator
`sendTransaction` (src/js/logic/send-transaction.js, which is not under
src/). Per sections 4.3 and 6 of the design it owns queueing and telemetry,
settles with the submission outcome, and on a successful settlement invokes
the supplied callback with the result; a failed settlement is surfaced as a
rejection (which the Transaction wrapper relays to the callback). -/
def externalSendTransaction (outcome : Except ErrorObj JSVal)
    (cbPresent : Bool) : Except ErrorObj JSVal × List CbCall :=
  match outcome with
  | .ok r => (.ok r, if cbPresent then [.ok r] else [])
  | .error e => (.error e, [])

/-- Transaction dispatcher (index.js lines 351-390): precondition checks
reject with initFail; the mobile fast-path sends directly through the raw
provider; otherwise the external submission collaborator runs and the
wrapper promise relays its settlement — on rejection the catch handler
rejects, invokes the callback with the error, and the subsequent
resolve(undefined) attempt is a no-op under once-only settlement. The
submission outcome is a parameter; errors are carried as opaque
ErrorObj values rendered to the callback as JSVal.str of the message. -/
def Transaction (s : EnvState) (cfg : Config) (cbPresent : Bool)
    (outcome : Except ErrorObj JSVal) : TxResult :=
  if !s.validApiKey then
    .rejected ⟨"Your api key is not valid", some .initFail⟩
  else if !s.supportedNetwork then
    .rejected ⟨"This network is not supported", some .initFail⟩
  else if s.mobileDevice && !cfg.mobileBlocked then
    .mobileSend
  else
    match externalSendTransaction outcome cbPresent with
    | (.ok r, calls) => .dispatched [.resolve r] calls
    | (.error e, calls) =>
      .dispatched [.reject e, .resolve JSVal.undefined]
        (calls ++ if cbPresent then [.err (.str e.message)] else [])

/-- ABI entry: a method descriptor with a name and ordered inputs. -/
structure ABIEntry where
  name : String
  inputs : List String
  deriving DecidableEq, Repr

/-- Contract descriptor handed to the adapter: its own enumerable
properties in order (with scalar-modelled values), the three polymorphic
ABI sources (abi, _jsonInterface, abiModel.abi.methods with per-key
abiItem), and the method mapping behind the aggregate methods property
(the methods own property's value is a scalar stand-in; the mapping it
holds is carried in the methods field). -/
structure ContractDescriptor where
  props : List (String × JSVal)
  abi : Option (List ABIEntry)
  jsonInterface : Option (List ABIEntry)
  abiModelMethods : Option (List (String × ABIEntry))
  methods : List (String × JSVal)
  deriving DecidableEq, Repr

/-- ABI resolution order (index.js lines 257-262): explicit abi field, else
the cached _jsonInterface, else project the abiModel method mapping to its
abiItem values; none when all three are absent (the source would throw a
TypeError reading abiModel.abi). -/
def resolveABI (c : ContractDescriptor) : Option (List ABIEntry) :=
  c.abi <|> c.jsonInterface <|> c.abiModelMethods.map (·.map (·.2))

/-- Modern-path method handle: the wrapped closure routing through
modernMethod with the original method handle (none when the name is absent
from the method mapping, i.e. the JS lookup yielded undefined) and the ABI
entry. -/
structure ModernHandle where
  method : Option JSVal
  entry : ABIEntry
  deriving DecidableEq, Repr

/-- Value stored at a key of the delegated contract object: a passthrough
copy of the original value, a legacy three-operation method wrapper
(capturing the ABI entry and the original method handle, which also
supplies getData), or the rebuilt modern methods aggregate. -/
inductive DelegatedVal
  | plain (v : JSVal)
  | legacyWrapped (entry : ABIEntry) (method : JSVal)
  | modernMethods (handles : List (String × ModernHandle))
  deriving DecidableEq, Repr

/-- Rebuilt modern methods aggregate (index.js lines 333-339): one handle
per ABI entry, looking the original handle up by name in the method
mapping. -/
def modernHandles (abi : List ABIEntry) (methods : List (String × JSVal)) :
    List (String × ModernHandle) :=
  abi.map fun entry => (entry.name, ⟨methods.lookup entry.name, entry⟩)

/-- Legacy path for one own key (index.js lines 268-328): keys without a
matching ABI entry are copied through; a matching entry replaces the value
with the legacy wrapper, stored under the entry's name. -/
def delegateKeyLegacy (abi : List ABIEntry) (key : String) (v : JSVal) :
    String × DelegatedVal :=
  match abi.find? (fun m => m.name == key) with
  | none => (key, .plain v)
  | some entry => (entry.name, .legacyWrapped entry v)

/-- Modern path for one own key (index.js lines 330-340): every key other
than the aggregate methods key is copied through; the methods key is
rebuilt from the ABI. -/
def delegateKeyModern (abi : List ABIEntry) (methods : List (String × JSVal))
    (key : String) (v : JSVal) : String × DelegatedVal :=
  if key == "methods" then
    ("methods", .modernMethods (modernHandles abi methods))
  else (key, .plain v)

/-- Construction of the delegated contract object (the reduce over the
original's own keys, index.js lines 267-344). -/
def buildDelegated (legacyWeb3 : Bool) (abi : List ABIEntry)
    (c : ContractDescriptor) : List (String × DelegatedVal) :=
  c.props.map fun p =>
    if legacyWeb3 then delegateKeyLegacy abi p.1 p.2
    else delegateKeyModern abi c.methods p.1 p.2

/-- Result of a successful Contract call: the identical original descriptor
(mobile fast-path, no delegation) or the delegated object. -/
inductive ContractResult
  | original (c : ContractDescriptor)
  | delegated (props : List (String × DelegatedVal))
  deriving DecidableEq, Repr

/-- Method delegation adapter (index.js lines 224-347): precondition checks
throw initFail; the mobile fast-path returns the original descriptor
unmodified; a missing provider instance is lazily configured from the
ambient global when present, else the call throws initFail; then the ABI is
resolved (throwing when every source is absent) and the delegated object is
built. -/
def Contract (s : EnvState) (cfg : Config) (c : ContractDescriptor) :
    Except ErrorObj ContractResult :=
  if !s.validApiKey then
    .error ⟨"Your API key is not valid", some .initFail⟩
  else if !s.supportedNetwork then
    .error ⟨"This network is not supported", some .initFail⟩
  else if s.mobileDevice && !cfg.mobileBlocked then
    .ok (.original c)
  else if !s.web3Instance && !s.windowWeb3 then
    .error ⟨"A web3 instance is needed to decorate contract", some .initFail⟩
  else
    match resolveABI c with
    | none =>
      .error ⟨"Cannot read property abi of undefined", none⟩
    | some abi => .ok (.delegated (buildDelegated s.legacyWeb3 abi c))

/-! Concrete environment states, configurations and descriptors used to
instantiate the theorems below on executable inputs. -/

/-- Desktop environment in which every readiness check passes. -/
def stateAllPass : EnvState :=
  { mobileDevice := false, validBrowser := true, web3Wallet := true,
    accessToAccounts := true, legacyWallet := false, modernWallet := true,
    walletLoggedIn := true, walletEnabled := true, correctNetwork := true,
    minimumBalance := true, validApiKey := true, supportedNetwork := true,
    legacyWeb3 := false, web3Instance := true, windowWeb3 := false }

/-- Environment in which checks 1 (browser) and 5 (balance) both fail. -/
def stateTwoFail : EnvState :=
  { stateAllPass with validBrowser := false, minimumBalance := false }

/-- Environment flagged as a mobile device. -/
def stateMobile : EnvState :=
  { stateAllPass with mobileDevice := true }

/-- Environment with a legacy provider generation. -/
def stateLegacy : EnvState :=
  { stateAllPass with legacyWeb3 := true }

/-- Configuration that does not block mobile devices. -/
def cfgMobileAllowed : Config :=
  { dappId := .str "key", mobileBlocked := false, headlessMode := false,
    web3Present := true }

/-- Configuration with no dappId supplied. -/
def cfgNoDappId : Config :=
  { dappId := .undefined, mobileBlocked := false, headlessMode := false,
    web3Present := false }

/-- Legacy-provider contract descriptor: one non-method property and one
method matching the single ABI entry. -/
def legacyContract : ContractDescriptor :=
  { props := [("owner", .str "0x1"), ("transfer", .str "transferFn")]
    abi := some [⟨"transfer", ["to", "amount"]⟩]
    jsonInterface := none
    abiModelMethods := none
    methods := [] }

/-- Modern-provider contract descriptor whose ABI names a method that the
method mapping does not contain. -/
def modernContract : ContractDescriptor :=
  { props := [("address", .str "0x2"), ("methods", .str "methodsObj")]
    abi := some [⟨"transfer", ["to", "amount"]⟩]
    jsonInterface := none
    abiModelMethods := none
    methods := [] }

/-! Helper lemmas about the delegated-object construction. -/

/-- The legacy per-key delegation preserves the key: a matched ABI entry is
stored under its own name, which equals the matched key. -/
theorem delegateKeyLegacy_fst (abi : List ABIEntry) (key : String) (v : JSVal) :
    (delegateKeyLegacy abi key v).1 = key := by
  unfold delegateKeyLegacy
  cases hf : abi.find? (fun m => m.name == key) with
  | none => rfl
  | some entry =>
    have h := List.find?_some hf
    simp only [beq_iff_eq] at h
    simp [h]

/-- The modern per-key delegation preserves the key. -/
theorem delegateKeyModern_fst (abi : List ABIEntry)
    (methods : List (String × JSVal)) (key : String) (v : JSVal) :
    (delegateKeyModern abi methods key v).1 = key := by
  unfold delegateKeyModern
  by_cases h : key = "methods" <;> simp [h]

/-- Lookup through a per-entry rewrite that preserves keys. -/
theorem lookup_map_fst_id {β γ : Type} (f : String → β → String × γ)
    (hf : ∀ k v, (f k v).1 = k) (l : List (String × β)) (k : String) :
    (l.map fun p => f p.1 p.2).lookup k = (l.lookup k).map fun v => (f k v).2 := by
  induction l with
  | nil => rfl
  | cons hd tl ih =>
    rcases hd with ⟨hk, hv⟩
    have h1 : (f hk hv).1 = hk := hf hk hv
    rcases hp : f hk hv with ⟨fk, fv⟩
    rw [hp] at h1
    simp only at h1
    simp only [List.map_cons, hp]
    by_cases h : k = hk
    · subst h
      simp [List.lookup, h1, hp]
    · have hbeq : (k == hk) = false := by simp [h]
      have hbeq2 : (k == fk) = false := by simp [h1, h]
      simp [List.lookup, hbeq, hbeq2, ih]

/-! Claim theorems. -/

/-- C1: in headless mode, onboard runs every readiness check without early
exit (each failing check's rejection attempt is issued against the
promise), and the eventual failure is the first failing check's error:
whenever check i fails and every earlier check passes, the outcome is check
i's rejection — so if checks i < j both fail the reported tag is check i's,
the later check's failure being discarded by once-only settlement, and if
exactly one check fails its tag is reported. -/
theorem onboard_headless_first_failure_wins (s : EnvState) (i : Fin 6)
    (hfail : checkRejects s i ≠ [])
    (hfirst : ∀ k : Fin 6, k < i → checkRejects s k = []) :
    headlessOutcome none s = Option.map Settle.reject (checkRejects s i).head? ∧
    ∀ j : Fin 6, ∀ e ∈ checkRejects s j,
      Settle.reject e ∈ headlessAttempts none s := by
  have hfr : List.finRange 6 = [0, 1, 2, 3, 4, 5] := by decide
  constructor
  · fin_cases i
    · cases hc : checkRejects s 0 with
      | nil => exact absurd hc hfail
      | cons e r =>
        simp [headlessOutcome, promiseOutcome, headlessAttempts, hfr, hc]
    · have h0 := hfirst 0 (by decide)
      cases hc : checkRejects s 1 with
      | nil => exact absurd hc hfail
      | cons e r =>
        simp [headlessOutcome, promiseOutcome, headlessAttempts, hfr, hc, h0]
    · have h0 := hfirst 0 (by decide)
      have h1 := hfirst 1 (by decide)
      cases hc : checkRejects s 2 with
      | nil => exact absurd hc hfail
      | cons e r =>
        simp [headlessOutcome, promiseOutcome, headlessAttempts, hfr, hc, h0, h1]
    · have h0 := hfirst 0 (by decide)
      have h1 := hfirst 1 (by decide)
      have h2 := hfirst 2 (by decide)
      cases hc : checkRejects s 3 with
      | nil => exact absurd hc hfail
      | cons e r =>
        simp [headlessOutcome, promiseOutcome, headlessAttempts, hfr, hc, h0, h1, h2]
    · have h0 := hfirst 0 (by decide)
      have h1 := hfirst 1 (by decide)
      have h2 := hfirst 2 (by decide)
      have h3 := hfirst 3 (by decide)
      cases hc : checkRejects s 4 with
      | nil => exact absurd hc hfail
      | cons e r =>
        simp [headlessOutcome, promiseOutcome, headlessAttempts, hfr, hc, h0, h1, h2, h3]
    · have h0 := hfirst 0 (by decide)
      have h1 := hfirst 1 (by decide)
      have h2 := hfirst 2 (by decide)
      have h3 := hfirst 3 (by decide)
      have h4 := hfirst 4 (by decide)
      cases hc : checkRejects s 5 with
      | nil => exact absurd hc hfail
      | cons e r =>
        simp [headlessOutcome, promiseOutcome, headlessAttempts, hfr, hc, h0, h1, h2, h3, h4]
  · intro j e he
    simp only [headlessAttempts, List.mem_append, List.mem_flatten, List.mem_map]
    refine Or.inl (Or.inr ?_)
    exact ⟨(checkRejects s j).map Settle.reject, ⟨j, List.mem_finRange j, rfl⟩,
      List.mem_map_of_mem Settle.reject he⟩

/-- Witness for C1: with the browser check (position 1) and the balance
check (position 5) both failing, the outcome is the browser failure. -/
theorem onboard_headless_first_failure_wins_witness :
    headlessOutcome none stateTwoFail =
      Option.map Settle.reject (checkRejects stateTwoFail 1).head? ∧
    ∀ j : Fin 6, ∀ e ∈ checkRejects stateTwoFail j,
      Settle.reject e ∈ headlessAttempts none stateTwoFail :=
  onboard_headless_first_failure_wins stateTwoFail 1 (by decide) (by decide)

/-- C6: in headless mode, when the environment check succeeds and no
readiness check fails, the promise resolves with the fixed confirmation
value and no rejection is ever attempted: the settlement-attempt list is
exactly the single resolve. -/
theorem onboard_headless_all_pass_resolves (s : EnvState)
    (h : ∀ i : Fin 6, checkRejects s i = []) :
    headlessOutcome none s = some (.resolve "User is ready to transact") ∧
    headlessAttempts none s = [.resolve "User is ready to transact"] := by
  have hfr : List.finRange 6 = [0, 1, 2, 3, 4, 5] := by decide
  have ha : headlessAttempts none s = [.resolve "User is ready to transact"] := by
    simp [headlessAttempts, hfr, h 0, h 1, h 2, h 3, h 4, h 5]
  exact ⟨by simp [headlessOutcome, promiseOutcome, ha], ha⟩

/-- Witness for C6 at an all-checks-pass environment. -/
theorem onboard_headless_all_pass_resolves_witness :
    headlessOutcome none stateAllPass = some (.resolve "User is ready to transact") ∧
    headlessAttempts none stateAllPass = [.resolve "User is ready to transact"] :=
  onboard_headless_all_pass_resolves stateAllPass (by decide)

/-- C7: in interactive mode on a mobile device with a valid API key and a
supported network, onboard emits the mobileBlocked notification in category
onboard carrying the dismissal hook, sets validBrowser to false, and the
returned promise is unsettled until the hook runs, after which it is the
mobileBlocked-tagged failure. -/
theorem onboard_interactive_mobile_pending (s : EnvState)
    (hkey : s.validApiKey = true) (hnet : s.supportedNetwork = true)
    (hmob : s.mobileDevice = true) :
    onboardInteractive s =
      (.mobilePending ⟨.mobileBlocked, .onboard, none, none⟩
        ⟨"User is on a mobile device", some .mobileBlocked⟩, some false) ∧
    interactiveSettlement (onboardInteractive s).1 false = none ∧
    interactiveSettlement (onboardInteractive s).1 true =
      some (.reject ⟨"User is on a mobile device", some .mobileBlocked⟩) := by
  have h : onboardInteractive s =
      (.mobilePending ⟨.mobileBlocked, .onboard, none, none⟩
        ⟨"User is on a mobile device", some .mobileBlocked⟩, some false) := by
    simp [onboardInteractive, hkey, hnet, hmob]
  exact ⟨h, by rw [h]; simp [interactiveSettlement],
    by rw [h]; simp [interactiveSettlement]⟩

/-- Witness for C7 at a concrete mobile environment. -/
theorem onboard_interactive_mobile_pending_witness :
    onboardInteractive stateMobile =
      (.mobilePending ⟨.mobileBlocked, .onboard, none, none⟩
        ⟨"User is on a mobile device", some .mobileBlocked⟩, some false) ∧
    interactiveSettlement (onboardInteractive stateMobile).1 false = none ∧
    interactiveSettlement (onboardInteractive stateMobile).1 true =
      some (.reject ⟨"User is on a mobile device", some .mobileBlocked⟩) :=
  onboard_interactive_mobile_pending stateMobile (by decide) (by decide) (by decide)

/-- C5: for every configuration whose dappId is falsy (in particular a
missing one), init notifies the event notifier with eventCode initFail and
reason "No API key provided to init function", records validApiKey false,
and throws an initFail-tagged error instead of returning the API surface. -/
theorem init_missing_dappId_dual_report (mobileDevice : Bool) (c : Config)
    (h : c.dappId.truthy = false) :
    init mobileDevice (some c) =
      { events := [⟨.initFail, .initCategory,
          some "No API key provided to init function", none⟩]
        validApiKeySet := some false
        result := .error ⟨"API key is required", some .initFail⟩ } := by
  simp [init, h]

/-- Witness for C5: init with an empty config object. -/
theorem init_missing_dappId_dual_report_witness :
    init false (some cfgNoDappId) =
      { events := [⟨.initFail, .initCategory,
          some "No API key provided to init function", none⟩]
        validApiKeySet := some false
        result := .error ⟨"API key is required", some .initFail⟩ } :=
  init_missing_dappId_dual_report false cfgNoDappId (by decide)

/-- C2: off the mobile fast-path and with the preconditions satisfied,
Transaction relays the external submission's settlement to the returned
promise and, when a callback is supplied, mirrors that settlement to the
callback: the result on success and the error on failure. -/
theorem transaction_settlement_mirrors_callback (s : EnvState) (cfg : Config)
    (cbPresent : Bool) (outcome : Except ErrorObj JSVal)
    (hkey : s.validApiKey = true) (hnet : s.supportedNetwork = true)
    (hmob : (s.mobileDevice && !cfg.mobileBlocked) = false) :
    ∃ attempts cbCalls,
      Transaction s cfg cbPresent outcome = .dispatched attempts cbCalls ∧
      (∀ r, outcome = .ok r →
        promiseOutcome attempts = some (.resolve r) ∧
        cbCalls = if cbPresent then [CbCall.ok r] else []) ∧
      (∀ e, outcome = .error e →
        promiseOutcome attempts = some (.reject e) ∧
        cbCalls = if cbPresent then [CbCall.err (.str e.message)] else []) := by
  rcases outcome with e | r
  · refine ⟨[.reject e, .resolve JSVal.undefined],
      (if cbPresent then [CbCall.err (.str e.message)] else []), ?_, ?_, ?_⟩
    · simp [Transaction, externalSendTransaction, hkey, hnet, hmob]
    · intro r hr
      exact absurd hr (by simp)
    · intro e2 he2
      cases he2
      exact ⟨rfl, rfl⟩
  · refine ⟨[.resolve r], (if cbPresent then [CbCall.ok r] else []), ?_, ?_, ?_⟩
    · simp [Transaction, externalSendTransaction, hkey, hnet, hmob]
    · intro r2 hr2
      cases hr2
      exact ⟨rfl, rfl⟩
    · intro e2 he2
      exact absurd he2 (by simp)

/-- Witness for C2 at a successful submission with a callback present. -/
theorem transaction_settlement_mirrors_callback_witness :
    ∃ attempts cbCalls,
      Transaction stateAllPass cfgMobileAllowed true (.ok (.num 42)) =
        .dispatched attempts cbCalls ∧
      (∀ r, (Except.ok (ε := ErrorObj) (JSVal.num 42)) = .ok r →
        promiseOutcome attempts = some (.resolve r) ∧
        cbCalls = if true then [CbCall.ok r] else []) ∧
      (∀ e, (Except.ok (ε := ErrorObj) (JSVal.num 42)) = .error e →
        promiseOutcome attempts = some (.reject e) ∧
        cbCalls = if true then [CbCall.err (.str e.message)] else []) :=
  transaction_settlement_mirrors_callback stateAllPass cfgMobileAllowed true
    (.ok (.num 42)) (by decide) (by decide) (by decide)

/-- C3 (amended): for a legacy-provider method invoked via .call, the
contractQuery/activeContract telemetry event carrying the method name, the
positional arguments and the JSON-serialized result is emitted exactly once
per invocation whether or not a callback is supplied; on success the
callback is invoked with (null, result) only when the result is truthy (a
falsy successful result suppresses the invocation); on failure the callback
receives the error when supplied and the error is not re-raised (the run
completes and still emits the event). -/
theorem contract_call_truthy_success_spec (name : String)
    (callback : Option Unit) (args : List JSVal)
    (outcome : Except JSVal JSVal) :
    (legacyCall name callback args outcome).events =
      [⟨.contractQuery, .activeContract, none,
        some ⟨name, args, jsonStringify (legacyCallResult outcome)⟩⟩] ∧
    (legacyCall name callback args outcome).cbCalls =
      match outcome, callback with
      | .ok v, some _ => if v.truthy then [CbCall.ok v] else []
      | .ok _, none => []
      | .error e, some _ => [CbCall.err e]
      | .error _, none => [] := by
  rcases outcome with e | v <;> rcases callback with _ | ⟨⟩ <;>
    simp [legacyCall, legacyCallResult, JSVal.truthy]

/-- Counterexample for C3 as stated: a successful call whose result is the
number 0 with a callback supplied invokes no callback at all, in particular
not with (null, result). -/
theorem contract_call_falsy_result_counterexample :
    (legacyCall "transfer" (some ()) [] (.ok (.num 0))).cbCalls = [] ∧
    CbCall.ok (.num 0) ∉ (legacyCall "transfer" (some ()) [] (.ok (.num 0))).cbCalls := by
  decide

/-- C10: when the promisified legacy call rejects, the rejection is
absorbed into the optional callback, execution continues, and the
contractQuery event still fires exactly once with its result field being
the JSON serialization of undefined (i.e. no string at all). -/
theorem contract_call_rejected_still_emits_event (name : String)
    (callback : Option Unit) (args : List JSVal) (e : JSVal) :
    (legacyCall name callback args (.error e)).events =
      [⟨.contractQuery, .activeContract, none,
        some ⟨name, args, jsonStringify JSVal.undefined⟩⟩] ∧
    jsonStringify JSVal.undefined = none ∧
    (legacyCall name callback args (.error e)).cbCalls =
      match callback with
      | some _ => [CbCall.err e]
      | none => [] := by
  rcases callback with _ | ⟨⟩ <;>
    simp [legacyCall, legacyCallResult, JSVal.truthy, jsonStringify]

/-- C4: with valid preconditions, on a mobile device whose configuration
does not block mobile, Contract returns the original descriptor itself,
with no delegation applied. -/
theorem contract_mobile_fastpath_identity (s : EnvState) (cfg : Config)
    (c : ContractDescriptor)
    (hkey : s.validApiKey = true) (hnet : s.supportedNetwork = true)
    (hmob : s.mobileDevice = true) (hblk : cfg.mobileBlocked = false) :
    Contract s cfg c = .ok (.original c) := by
  simp [Contract, hkey, hnet, hmob, hblk]

/-- Witness for C4 at a concrete descriptor. -/
theorem contract_mobile_fastpath_identity_witness :
    Contract stateMobile cfgMobileAllowed legacyContract =
      .ok (.original legacyContract) :=
  contract_mobile_fastpath_identity stateMobile cfgMobileAllowed legacyContract
    (by decide) (by decide) (by decide) (by decide)

/-- C8: off the mobile fast-path, wrapping a descriptor and reading an own
key that matches no ABI entry (legacy path) or is not the methods key
(modern path) yields exactly the original value, passed through. -/
theorem contract_non_method_passthrough (s : EnvState) (cfg : Config)
    (c : ContractDescriptor) (abi : List ABIEntry) (k : String)
    (hkey : s.validApiKey = true) (hnet : s.supportedNetwork = true)
    (hmob : (s.mobileDevice && !cfg.mobileBlocked) = false)
    (hweb3 : (!s.web3Instance && !s.windowWeb3) = false)
    (habi : resolveABI c = some abi)
    (hleg : s.legacyWeb3 = true → abi.find? (fun m => m.name == k) = none)
    (hmod : s.legacyWeb3 = false → k ≠ "methods") :
    Contract s cfg c = .ok (.delegated (buildDelegated s.legacyWeb3 abi c)) ∧
    (buildDelegated s.legacyWeb3 abi c).lookup k =
      (c.props.lookup k).map DelegatedVal.plain := by
  constructor
  · simp [Contract, hkey, hnet, hmob, hweb3, habi]
  · cases hl : s.legacyWeb3
    · have hk := hmod hl
      have hb : buildDelegated false abi c =
          c.props.map fun p => delegateKeyModern abi c.methods p.1 p.2 := by
        simp [buildDelegated]
      rw [hb, lookup_map_fst_id _
        (fun key v => delegateKeyModern_fst abi c.methods key v) c.props k]
      have hval : ∀ v, (delegateKeyModern abi c.methods k v).2 =
          DelegatedVal.plain v := by
        intro v
        simp [delegateKeyModern, hk]
      cases c.props.lookup k <;> simp [hval]
    · have hk := hleg hl
      have hb : buildDelegated true abi c =
          c.props.map fun p => delegateKeyLegacy abi p.1 p.2 := by
        simp [buildDelegated]
      rw [hb, lookup_map_fst_id _
        (fun key v => delegateKeyLegacy_fst abi key v) c.props k]
      have hval : ∀ v, (delegateKeyLegacy abi k v).2 = DelegatedVal.plain v := by
        intro v
        simp [delegateKeyLegacy, hk]
      cases c.props.lookup k <;> simp [hval]

/-- Witness for C8: a legacy-provider wrap passes the owner key through. -/
theorem contract_non_method_passthrough_witness :
    Contract stateLegacy cfgMobileAllowed legacyContract =
      .ok (.delegated (buildDelegated stateLegacy.legacyWeb3
        [⟨"transfer", ["to", "amount"]⟩] legacyContract)) ∧
    (buildDelegated stateLegacy.legacyWeb3
        [⟨"transfer", ["to", "amount"]⟩] legacyContract).lookup "owner" =
      (legacyContract.props.lookup "owner").map DelegatedVal.plain :=
  contract_non_method_passthrough stateLegacy cfgMobileAllowed legacyContract
    [⟨"transfer", ["to", "amount"]⟩] "owner" (by decide) (by decide) (by decide)
    (by decide) (by decide) (by decide) (by decide)

/-- C9: an ABI entry whose name is absent from the descriptor's method
mapping does not make construction throw: Contract still returns the
delegated object, the methods aggregate is rebuilt, and it contains a
defined handle for that name (whose captured original method is the
undefined lookup, so only a later invocation can fail). -/
theorem contract_missing_method_safe_construction (s : EnvState)
    (cfg : Config) (c : ContractDescriptor) (abi : List ABIEntry)
    (entry : ABIEntry) (v : JSVal)
    (hkey : s.validApiKey = true) (hnet : s.supportedNetwork = true)
    (hmob : (s.mobileDevice && !cfg.mobileBlocked) = false)
    (hweb3 : (!s.web3Instance && !s.windowWeb3) = false)
    (hlegacy : s.legacyWeb3 = false)
    (habi : resolveABI c = some abi) (hentry : entry ∈ abi)
    (hmissing : c.methods.lookup entry.name = none)
    (hmethods : c.props.lookup "methods" = some v) :
    Contract s cfg c = .ok (.delegated (buildDelegated false abi c)) ∧
    (buildDelegated false abi c).lookup "methods" =
      some (.modernMethods (modernHandles abi c.methods)) ∧
    (entry.name, ⟨none, entry⟩) ∈ modernHandles abi c.methods := by
  refine ⟨?_, ?_, ?_⟩
  · simp [Contract, hkey, hnet, hmob, hweb3, habi, hlegacy]
  · have hb : buildDelegated false abi c =
        c.props.map fun p => delegateKeyModern abi c.methods p.1 p.2 := by
      simp [buildDelegated]
    rw [hb, lookup_map_fst_id _
      (fun key v => delegateKeyModern_fst abi c.methods key v) c.props "methods",
      hmethods]
    simp [delegateKeyModern]
  · simp only [modernHandles, List.mem_map]
    exact ⟨entry, hentry, by simp [hmissing]⟩

/-- Witness for C9: the modern descriptor's ABI names transfer, which its
method mapping lacks. -/
theorem contract_missing_method_safe_construction_witness :
    Contract stateAllPass cfgMobileAllowed modernContract =
      .ok (.delegated (buildDelegated false
        [⟨"transfer", ["to", "amount"]⟩] modernContract)) ∧
    (buildDelegated false [⟨"transfer", ["to", "amount"]⟩]
        modernContract).lookup "methods" =
      some (.modernMethods (modernHandles [⟨"transfer", ["to", "amount"]⟩]
        modernContract.methods)) ∧
    (("transfer" : String), (⟨none, ⟨"transfer", ["to", "amount"]⟩⟩ : ModernHandle)) ∈
      modernHandles [⟨"transfer", ["to", "amount"]⟩] modernContract.methods :=
  contract_missing_method_safe_construction stateAllPass cfgMobileAllowed
    modernContract [⟨"transfer", ["to", "amount"]⟩] ⟨"transfer", ["to", "amount"]⟩
    (.str "methodsObj") (by decide) (by decide) (by decide) (by decide)
    (by decide) (by decide) (by decide) (by decide) (by decide)

end Assist
